import Mathlib

/-
Verification of the semantic-analysis core of the goscript repository.
The Rust sources embedded here are:
  src/types/src/check/check.rs   (Checker, TypeInfo recording, ObjContext)
  src/types/src/objects.rs       (TCObjects arena, new_scope, new_package)
  src/types/src/package.rs       (Package)
  src/src/parser.rs              (Parser::declare, Parser::short_var_decl)
Arenas (slotmap DenseSlotMap / vector arenas) are embedded as Lean lists
whose keys are list indices: insertion appends at the end and returns the
previous length as the fresh key, which models the fresh, stable keys of
the source arenas.  HashMap is embedded as an association list with
first-match lookup and cons insertion (so insertion overwrites through
lookup, as HashMap::insert does).  A Rust function that can panic
(assert, unwrap, index out of range, unreachable) is embedded as an
Option-returning function where the panic is reachable; none stands for
the panic.
-/

namespace Goscript

/-- Association-list lookup with first-match semantics; embeds HashMap::get. -/
def mlookup {α β : Type} [DecidableEq α] : List (α × β) → α → Option β
  | [], _ => none
  | (a, b) :: t, k => if a = k then some b else mlookup t k

/-- Association-list insertion by consing; embeds HashMap::insert, whose
overwrite behaviour is observed through mlookup (first match wins). -/
def minsert {α β : Type} (m : List (α × β)) (k : α) (v : β) : List (α × β) :=
  (k, v) :: m

theorem mlookup_minsert_self {α β : Type} [DecidableEq α]
    (m : List (α × β)) (k : α) (v : β) : mlookup (minsert m k v) k = some v := by
  simp [minsert, mlookup]

theorem mlookup_minsert_ne {α β : Type} [DecidableEq α]
    (m : List (α × β)) (k k2 : α) (v : β) (h : k ≠ k2) :
    mlookup (minsert m k v) k2 = mlookup m k2 := by
  simp [minsert, mlookup, h]

theorem getD_append_left {α : Type} (l l2 : List α) (i : Nat) (d : α)
    (h : i < l.length) : (l ++ l2).getD i d = l.getD i d := by
  induction l generalizing i with
  | nil => simp at h
  | cons a t ih =>
    cases i with
    | zero => simp [List.getD]
    | succ j =>
      simp only [List.cons_append, List.getD_cons_succ]
      exact ih j (by simpa using h)

theorem getD_set_self {α : Type} (l : List α) (i : Nat) (v d : α)
    (h : i < l.length) : (l.set i v).getD i d = v := by
  induction l generalizing i with
  | nil => simp at h
  | cons a t ih =>
    cases i with
    | zero => simp [List.getD]
    | succ j =>
      simp only [List.set_cons_succ, List.getD_cons_succ]
      exact ih j (by simpa using h)

theorem getD_set_ne {α : Type} (l : List α) (i j : Nat) (v d : α)
    (h : i ≠ j) : (l.set i v).getD j d = l.getD j d := by
  induction l generalizing i j with
  | nil => simp
  | cons a t ih =>
    cases i with
    | zero =>
      cases j with
      | zero => exact absurd rfl h
      | succ j2 => simp [List.getD]
    | succ i2 =>
      cases j with
      | zero => simp [List.getD]
      | succ j2 =>
        simp only [List.set_cons_succ, List.getD_cons_succ]
        exact ih i2 j2 (by intro hc; exact h (by rw [hc]))

theorem mem_of_mem_set {α : Type} (l : List α) (i : Nat) (v a : α)
    (h : a ∈ l.set i v) : a ∈ l ∨ a = v := by
  induction l generalizing i with
  | nil => simp at h
  | cons b t ih =>
    cases i with
    | zero =>
      rcases List.mem_cons.mp h with h1 | h1
      · exact Or.inr h1
      · exact Or.inl (List.mem_cons_of_mem _ h1)
    | succ j =>
      rcases List.mem_cons.mp h with h1 | h1
      · exact Or.inl (h1 ▸ List.mem_cons_self _ _)
      · rcases ih j h1 with h2 | h2
        · exact Or.inl (List.mem_cons_of_mem _ h2)
        · exact Or.inr h2

/-! The AST side (crate goscript_parser).  Positions (Pos) are plain Nat
offsets; diagnostics carry the raw position and the message text. -/

/-- Diagnostic record; embeds one entry of ErrorList (position plus text). -/
structure Diag where
  pos : Nat
  msg : String
deriving DecidableEq

/-- Modelled from the spec: rendering of a resolved source position inside a
diagnostic message (position::Position Display; the position module is not
among the provided sources).  The exact text of the rendering is immaterial
to the claims, which only require that the position is cited. -/
def posToString (p : Nat) : String := toString p

/-- IdentEntity of the parser AST: what an identifier currently denotes. -/
inductive IdentEntity where
  | noEntity : IdentEntity
  | sentinel : IdentEntity
  | entity (key : Nat) : IdentEntity
deriving DecidableEq

/-- Ident node of the AST (ast.rs): position, name and denoted entity. -/
structure Ident where
  pos : Nat
  name : String
  entity : IdentEntity
deriving DecidableEq

/-- EntityKind of the parser AST (ast.rs). -/
inductive EntityKind where
  | bad : EntityKind
  | pkg : EntityKind
  | con : EntityKind
  | typ : EntityKind
  | var : EntityKind
  | func : EntityKind
  | lbl : EntityKind
deriving DecidableEq

/-- Entity of the parser AST: kind, name and declaration position.
Modelled from the spec: the source Entity carries a decl node and data
payload from which Entity::pos resolves the declaration position
(ast module, not among the provided sources); here the resolved position
is carried directly and the decl and data payloads are not represented,
since every claim consults the entity only through its kind, name and
resolved declaration position. -/
structure Entity where
  kind : EntityKind
  name : String
  pos : Nat
deriving DecidableEq

/-- Scope of the parser AST (src/src/scope.rs, not among the provided
sources): outer scope link and the name-to-entity binding table. -/
structure PScope where
  outer : Option Nat
  entries : List (String × Nat)
deriving DecidableEq

/-- Modelled from the spec: parser Scope::insert (src/src/scope.rs is not
among the provided sources).  If the name is already bound directly in this
scope the previously bound entity is returned and the binding is not
modified; otherwise the name is bound to the entity and nothing is
returned. -/
def PScope.insert (s : PScope) (name : String) (ent : Nat) : Option Nat × PScope :=
  match mlookup s.entries name with
  | some prev => (some prev, s)
  | none => (none, { s with entries := minsert s.entries name ent })

/-- Arena of the parser AST (ast_objects.rs): idents, entities and scopes,
addressed by index keys. -/
structure Objects where
  idents : List Ident
  entities : List Entity
  scopes : List PScope
deriving DecidableEq

/-- Arena read of an ident key; embeds the ident! macro (indexing). -/
def identAt (idents : List Ident) (i : Nat) : Ident :=
  idents.getD i ⟨0, "", IdentEntity.noEntity⟩

/-- Arena read of an entity key; embeds the entity! macro (indexing). -/
def entityAt (entities : List Entity) (i : Nat) : Entity :=
  entities.getD i ⟨EntityKind.bad, "", 0⟩

/-- Arena read of a parser scope key; embeds the scope! macro (indexing). -/
def pscopeAt (scopes : List PScope) (i : Nat) : PScope :=
  scopes.getD i ⟨none, []⟩

/-- Expression node of the AST.  Every node carries its NodeId (the id
field); ident nodes refer to the ident arena through their ident key, and
paren nodes carry the parenthesis position and the wrapped expression.
All further expression forms, none of which the embedded functions
distinguish, are collapsed into the other constructor. -/
inductive Expr where
  | ident (id : Nat) (ik : Nat) : Expr
  | paren (id : Nat) (pos : Nat) (expr : Expr) : Expr
  | other (id : Nat) (pos : Nat) : Expr
deriving DecidableEq

/-- NodeId of an expression; embeds Expr::id. -/
def Expr.id : Expr → Nat
  | Expr.ident i _ => i
  | Expr.paren i _ _ => i
  | Expr.other i _ => i

/-- Source position of an expression; embeds Expr::pos(&objects). -/
def Expr.pos (objs : Objects) : Expr → Nat
  | Expr.ident _ ik => (identAt objs.idents ik).pos
  | Expr.paren _ p _ => p
  | Expr.other _ p => p

/-- Token of the scanner, reduced to what error_expected inspects: the
semicolon token with its real flag, and any other token with its text. -/
inductive PToken where
  | semicolon (real : Bool) : PToken
  | otherTok (text : String) : PToken
deriving DecidableEq

/-- Text of a token; embeds Token::token_text for the cases kept. -/
def PToken.token_text : PToken → String
  | PToken.semicolon _ => ";"
  | PToken.otherTok t => t

/-! Parser state and the two declaration operations (src/src/parser.rs). -/

/-- Parser state, reduced to the fields the embedded operations touch:
the AST arena, the error list, the current token and its position, and the
top (innermost) scope.  The scanner, trace state and the remaining fields
of the source Parser struct never influence declare or short_var_decl. -/
structure Parser where
  objects : Objects
  errors : List Diag
  pos : Nat
  token : PToken
  top_scope : Option Nat
deriving DecidableEq

/-- Appends one diagnostic; embeds Parser::error (parser.rs 239). -/
def Parser.error (p : Parser) (pos : Nat) (msg : String) : Parser :=
  { p with errors := p.errors ++ [⟨pos, msg⟩] }

/-- Embeds Parser::error_expected (parser.rs 244): prefixes the message
with expected and, when the error position is the current position,
appends what was found instead. -/
def Parser.error_expected (p : Parser) (pos : Nat) (msg : String) : Parser :=
  let mstr := "expected " ++ msg
  let mstr :=
    if pos = p.pos then
      match p.token with
      | PToken.semicolon real => if real = false then mstr ++ ", found newline" else mstr
      | t => mstr ++ ", found " ++ t.token_text
    else mstr
  p.error pos mstr

/-- Embeds one iteration of the loop of Parser::declare (parser.rs 98-122)
for a single ident: a fresh entity is created and attached to the ident;
for a non-blank name the entity is inserted into the target scope, and if
the name was already bound there a redeclaration diagnostic citing the
previous declaration position is emitted while the binding stays as it
was. -/
def Parser.declare_one (p : Parser) (kind : EntityKind) (scope_ind : Nat) (id : Nat) : Parser :=
  let ident0 := identAt p.objects.idents id
  let ekey := p.objects.entities.length
  let ent : Entity := ⟨kind, ident0.name, ident0.pos⟩
  let objs1 : Objects :=
    { p.objects with
      entities := p.objects.entities ++ [ent],
      idents := p.objects.idents.set id { ident0 with entity := IdentEntity.entity ekey } }
  let p1 : Parser := { p with objects := objs1 }
  if ident0.name = "_" then p1
  else
    let scope0 := pscopeAt objs1.scopes scope_ind
    match PScope.insert scope0 ident0.name ekey with
    | (some prev_decl, _) =>
      let ppos := (entityAt objs1.entities prev_decl).pos
      p1.error ident0.pos
        (ident0.name ++ " redeclared in this block\n\tprevious declaration at "
          ++ posToString ppos)
    | (none, scope1) =>
      { p1 with objects := { objs1 with scopes := objs1.scopes.set scope_ind scope1 } }

/-- Embeds Parser::declare (parser.rs 98-122) over its ident list.  The
decl and data arguments of the source are carried only into the created
entities and are not represented (see Entity). -/
def Parser.declare (p : Parser) (kind : EntityKind) (scope_ind : Nat) (ids : List Nat) : Parser :=
  ids.foldl (fun acc id => acc.declare_one kind scope_ind id) p

/-- Embeds the loop of Parser::short_var_decl (parser.rs 128-150), carrying
the running count n of new variables.  none embeds the panic of
self.top_scope.unwrap() when no scope is open. -/
def Parser.svd_loop (p : Parser) (n : Nat) : List Expr → Option (Parser × Nat)
  | [] => some (p, n)
  | expr :: rest =>
    match expr with
    | Expr.ident _ ik =>
      let ident0 := identAt p.objects.idents ik
      let ekey := p.objects.entities.length
      let ent : Entity := ⟨EntityKind.var, ident0.name, ident0.pos⟩
      let objs1 : Objects :=
        { p.objects with
          entities := p.objects.entities ++ [ent],
          idents := p.objects.idents.set ik { ident0 with entity := IdentEntity.entity ekey } }
      if ident0.name = "_" then Parser.svd_loop { p with objects := objs1 } n rest
      else
        match p.top_scope with
        | none => none
        | some ts =>
          let scope0 := pscopeAt objs1.scopes ts
          match PScope.insert scope0 ident0.name ekey with
          | (some e, _) =>
            let objs2 : Objects :=
              { objs1 with
                idents := objs1.idents.set ik { ident0 with entity := IdentEntity.entity e } }
            Parser.svd_loop { p with objects := objs2 } n rest
          | (none, scope1) =>
            Parser.svd_loop
              { p with objects := { objs1 with scopes := objs1.scopes.set ts scope1 } }
              (n + 1) rest
    | e =>
      Parser.svd_loop (p.error_expected (e.pos p.objects) "identifier on left side of :=") n rest

/-- Embeds Parser::short_var_decl (parser.rs 124-155).  The assign_stmt
argument of the source is carried only into the created entities and is
not represented (see Entity).  none embeds the two reachable panics: the
unwrap of top_scope and the list[0] indexing of an empty list. -/
def Parser.short_var_decl (p : Parser) (list : List Expr) : Option Parser :=
  match Parser.svd_loop p 0 list with
  | none => none
  | some (p1, n) =>
    if n = 0 then
      match list with
      | [] => none
      | e0 :: _ => some (p1.error (e0.pos p1.objects) "no new variables on left side of :=")
    else some p1

/-! The types side (crate goscript_types). -/

/-- OperandMode of operand.rs, as consumed by the recording functions. -/
inductive OperandMode where
  | invalid : OperandMode
  | novalue : OperandMode
  | builtin : OperandMode
  | typexpr : OperandMode
  | constantMode : OperandMode
  | variableMode : OperandMode
  | mapindex : OperandMode
  | valueMode : OperandMode
  | commaok : OperandMode
deriving DecidableEq

/-- Constant value (constant::Value); its internal structure is never
inspected by the embedded functions, so it is carried opaquely as a Nat. -/
abbrev Value := Nat

/-- TypeAndValue (check.rs 24-28): evaluation mode, type key and optional
constant value of one expression. -/
structure TypeAndValue where
  mode : OperandMode
  typ : Nat
  val : Option Value
deriving DecidableEq

/-- Initializer (check.rs 33-36). -/
structure Initializer where
  lhs : List Nat
  rhs : Expr
deriving DecidableEq

/-- TypeInfo (check.rs 39-115): the Result Store.  The five node-keyed maps
plus the ordered initializer list.  Selections are keyed by node id and
carry the selected object key (the remaining Selection payload is never
inspected by the embedded functions). -/
structure TypeInfo where
  types : List (Nat × TypeAndValue)
  defs : List (Nat × Nat)
  uses : List (Nat × Nat)
  implicits : List (Nat × Nat)
  selections : List (Nat × Nat)
  scopes : List (Nat × Nat)
  init_order : List Initializer
deriving DecidableEq

/-- Embeds TypeInfo::new (check.rs 118-128). -/
def TypeInfo.new : TypeInfo :=
  { types := [], defs := [], uses := [], implicits := [], selections := [],
    scopes := [], init_order := [] }

/-- LangObj (obj.rs), reduced to the fields new_var sets and the claims
read: declaring position, owning package, name and optional type. -/
structure LangObj where
  pos : Nat
  pkg : Option Nat
  name : String
  typ : Option Nat
deriving DecidableEq

/-- Embeds LangObj::new_var. -/
def LangObj.new_var (pos : Nat) (pkg : Option Nat) (name : String) (typ : Option Nat) : LangObj :=
  { pos := pos, pkg := pkg, name := name, typ := typ }

/-- Type entry of the type arena (typ.rs), reduced to the tuple form that
comma_ok_type allocates; every other form is collapsed into otherType. -/
inductive Typ where
  | tuple (vars : List Nat) : Typ
  | otherType : Typ
deriving DecidableEq

/-- Package (package.rs 6-14). -/
structure Package where
  path : String
  name : String
  scope : Nat
  complete : Bool
  imports : List Nat
  fake : Bool
deriving DecidableEq

/-- Embeds Package::new (package.rs 17-26). -/
def Package.new (path name : String) (scope : Nat) : Package :=
  { path := path, name := name, scope := scope, complete := false,
    imports := [], fake := false }

/-- Scope of the types side (src/types/src/scope.rs, not among the provided
sources): parent link, child list, bindings and the position bookkeeping
that Scope::new receives. -/
structure Scope where
  parent : Option Nat
  children : List Nat
  elems : List (String × Nat)
  pos : Nat
  end_pos : Nat
  comment : String
deriving DecidableEq

/-- Modelled from the spec: types Scope::new (scope.rs is not among the
provided sources) creates a scope chained to the given parent with no
children and no bindings. -/
def Scope.new (parent : Option Nat) (pos end_pos : Nat) (comment : String) : Scope :=
  { parent := parent, children := [], elems := [], pos := pos,
    end_pos := end_pos, comment := comment }

/-- Modelled from the spec: types Scope::add_child (scope.rs is not among
the provided sources) registers the given scope key as one of the children
of this scope. -/
def Scope.add_child (s : Scope) (child : Nat) : Scope :=
  { s with children := s.children ++ [child] }

/-- Arena read of a types scope key; embeds self.scopes[key]. -/
def scopeAt (scopes : List Scope) (i : Nat) : Scope :=
  scopes.getD i (Scope.new none 0 0 "")

/-- DeclInfo of resolver.rs (not among the provided sources), modelled from
the spec: the dependency bookkeeping of one package-level declaration with
its owning file index, its left-hand-side object list and its dependency
set of other objects. -/
structure DeclInfo where
  fdx : Nat
  lhs : List Nat
  deps : List Nat
deriving DecidableEq

/-- Modelled from the spec: DeclInfo::add_dep (resolver.rs is not among the
provided sources) adds the given object to the dependency set; as a set
insertion it leaves the record unchanged when the object is already a
dependency. -/
def DeclInfo.add_dep (d : DeclInfo) (toObj : Nat) : DeclInfo :=
  if toObj ∈ d.deps then d else { d with deps := d.deps ++ [toObj] }

/-- Arena read of a decl info key; embeds self.tc_objs.decls[key]. -/
def declAt (decls : List DeclInfo) (i : Nat) : DeclInfo :=
  decls.getD i ⟨0, [], []⟩

/-- TCObjects (objects.rs 34-44): the category-partitioned arena.  The
universe field of the source (a Universe value) is carried as the two keys
the embedded functions consult, and the decls store used by check.rs is
included.  The fmt_qualifier function field is not represented. -/
structure TCObjects where
  lobjs : List LangObj
  types : List Typ
  pkgs : List Package
  scopes : List Scope
  decls : List DeclInfo
  universe_scope : Nat
  universe_pkg : Nat
  debug : Bool
deriving DecidableEq

/-- Embeds TCObjects::new (objects.rs 51-71): the universe scope is created
first (key 0), then the scope and package of the unsafe package. -/
def TCObjects.new : TCObjects :=
  { lobjs := [],
    types := [],
    pkgs := [Package.new "unsafe" "unsafe" 1],
    scopes := [Scope.new none 0 0 "universe", Scope.new (some 0) 0 0 "package unsafe"],
    decls := [],
    universe_scope := 0,
    universe_pkg := 0,
    debug := true }

/-- Embeds TCObjects::new_scope (objects.rs 73-89).  Note that the source
shadows the fresh key with the parent key in the if-let binding, so the
child registration call reads self.scopes[parent].add_child(parent); the
embedding reproduces that behaviour exactly. -/
def TCObjects.new_scope (o : TCObjects) (parent : Option Nat) (pos end_pos : Nat)
    (comment : String) : Nat × TCObjects :=
  let scope := Scope.new parent pos end_pos comment
  let skey := o.scopes.length
  let o1 : TCObjects := { o with scopes := o.scopes ++ [scope] }
  match parent with
  | some pk =>
    if pk = o1.universe_scope then (skey, o1)
    else (skey, { o1 with scopes := o1.scopes.set pk ((scopeAt o1.scopes pk).add_child pk) })
  | none => (skey, o1)

/-- Embeds TCObjects::new_package (objects.rs 91-100). -/
def TCObjects.new_package (o : TCObjects) (path name : String) : Nat × TCObjects :=
  let r := o.new_scope (some o.universe_scope) 0 0 ("package " ++ path)
  let pkg := Package.new path name r.1
  (r.2.pkgs.length, { r.2 with pkgs := r.2.pkgs ++ [pkg] })

/-- ObjContext (check.rs 141-158).  The panics field (a list of call
expressions) is kept as such. -/
structure ObjContext where
  decl : Option Nat
  scope : Nat
  pos : Nat
  iota : Option Value
  sig : Option Nat
  panics : Option (List Expr)
  has_label : Bool
  has_call_or_recv : Bool
deriving DecidableEq

/-- Checker (check.rs 183-208), reduced to the state the embedded functions
read or write: the object arena, the two diagnostic lists, the package key,
the obj_map of tracked package-level declarations and the result store.
The AST arena, file set and import configuration are passed separately
where needed. -/
structure Checker where
  tc_objs : TCObjects
  errors : List Diag
  soft_errors : List Diag
  pkg : Nat
  obj_map : List (Nat × Nat)
  result : TypeInfo
deriving DecidableEq

/-- Embeds Checker::error (check.rs 502-513): appends one hard diagnostic. -/
def Checker.error (ck : Checker) (pos : Nat) (msg : String) : Checker :=
  { ck with errors := ck.errors ++ [⟨pos, msg⟩] }

/-- Embeds Checker::soft_error (check.rs 506-508). -/
def Checker.soft_error (ck : Checker) (pos : Nat) (msg : String) : Checker :=
  { ck with soft_errors := ck.soft_errors ++ [⟨pos, msg⟩] }

/-- Embeds ObjContext::add_decl_dep (check.rs 215-224): a no-op unless a
package-level declaration is being checked and the target is a tracked
package-level declaration; otherwise the edge is added to the dependency
set of the current declaration. -/
def ObjContext.add_decl_dep (octx : ObjContext) (ck : Checker) (toObj : Nat) : Checker :=
  match octx.decl with
  | none => ck
  | some dk =>
    if (mlookup ck.obj_map toObj).isSome = false then ck
    else
      { ck with tc_objs :=
        { ck.tc_objs with decls :=
          ck.tc_objs.decls.set dk ((declAt ck.tc_objs.decls dk).add_dep toObj) } }

/-- Embeds TypeInfo::record_type_and_value (check.rs 293-305).  The source
asserts val.is_some() before anything else; none embeds that panic.  After
the assertion an invalid mode is ignored and otherwise an entry keyed by
the expression node is inserted. -/
def TypeInfo.record_type_and_value (ti : TypeInfo) (e : Expr) (mode : OperandMode)
    (typ : Nat) (val : Option Value) : Option TypeInfo :=
  if val.isSome = false then none
  else if mode = OperandMode.invalid then some ti
  else some { ti with types := minsert ti.types e.id ⟨mode, typ, val⟩ }

/-- Embeds TypeInfo::record_builtin_type (check.rs 307-321): records the
signature for the expression and then unwraps parens iteratively until the
identifier is reached; any other node form is unreachable in the source
(embedded as none, like the panics of the recording call). -/
def TypeInfo.record_builtin_type (ti : TypeInfo) (e : Expr) (sig : Nat) : Option TypeInfo :=
  match ti.record_type_and_value e OperandMode.builtin sig none with
  | none => none
  | some ti2 =>
    match e with
    | Expr.ident _ _ => some ti2
    | Expr.paren _ _ inner => ti2.record_builtin_type inner sig
    | Expr.other _ _ => none

/-- Embeds TypeInfo::record_def (check.rs 336-338). -/
def TypeInfo.record_def (ti : TypeInfo) (id : Nat) (obj : Nat) : TypeInfo :=
  { ti with defs := minsert ti.defs id obj }

/-- Embeds TypeInfo::record_use (check.rs 340-342). -/
def TypeInfo.record_use (ti : TypeInfo) (id : Nat) (obj : Nat) : TypeInfo :=
  { ti with uses := minsert ti.uses id obj }

/-- Embeds TypeInfo::record_implicit (check.rs 344-346). -/
def TypeInfo.record_implicit (ti : TypeInfo) (node_id : Nat) (obj : Nat) : TypeInfo :=
  { ti with implicits := minsert ti.implicits node_id obj }

/-- Embeds TypeInfo::record_scope (check.rs 357-359). -/
def TypeInfo.record_scope (ti : TypeInfo) (node_id : Nat) (scope : Nat) : TypeInfo :=
  { ti with scopes := minsert ti.scopes node_id scope }

/-- Embeds Checker::comma_ok_type (check.rs 417-436): allocates two fresh
unnamed variable objects carrying the two candidate types and a fresh
tuple type over them, returning the fresh tuple type key. -/
def Checker.comma_ok_type (ck : Checker) (objs : Objects) (e : Expr) (t : Nat × Nat) :
    Nat × Checker :=
  let pos := e.pos objs
  let v1 := LangObj.new_var pos (some ck.pkg) "" (some t.1)
  let v2 := LangObj.new_var pos (some ck.pkg) "" (some t.2)
  let k1 := ck.tc_objs.lobjs.length
  let k2 := ck.tc_objs.lobjs.length + 1
  let tkey := ck.tc_objs.types.length
  (tkey,
    { ck with tc_objs :=
      { ck.tc_objs with
        lobjs := ck.tc_objs.lobjs ++ [v1, v2],
        types := ck.tc_objs.types ++ [Typ.tuple [k1, k2]] } })

/-- Embeds TypeInfo::record_comma_ok_types (check.rs 323-334): for the
expression and every paren level below it, the previously recorded entry
is required (unwrap) with a present value slot (assert), its type is
rewritten to a freshly allocated comma-ok tuple, and the loop continues
through parens.  none embeds the unwrap and assert panics. -/
def TypeInfo.record_comma_ok_types (ti : TypeInfo) (ck : Checker) (objs : Objects)
    (e : Expr) (t : Nat × Nat) : Option (TypeInfo × Checker) :=
  match mlookup ti.types e.id with
  | none => none
  | some tv =>
    if tv.val.isSome = false then none
    else
      let r := ck.comma_ok_type objs e t
      let ti2 : TypeInfo := { ti with types := minsert ti.types e.id { tv with typ := r.1 } }
      match e with
      | Expr.paren _ _ inner => ti2.record_comma_ok_types r.2 objs inner t
      | _ => some (ti2, r.2)

/-- File node of the AST (ast.rs File), reduced to what
init_files_pkg_name consults: the ident key of the package name and the
position of the package clause. -/
structure AstFile where
  name : Nat
  package : Nat
deriving DecidableEq

/-- Embeds the loop of Checker::init_files_pkg_name (check.rs 439-468),
carrying the authoritative package name (from the first file) and the
accumulated result list. -/
def Checker.init_files_loop (ck : Checker) (objs : Objects) (pkg_name : Option String)
    (acc : List AstFile) : List AstFile → Checker × Except Unit (List AstFile)
  | [] => (ck, Except.ok acc)
  | f :: rest =>
    let ident0 := identAt objs.idents f.name
    match pkg_name with
    | none =>
      if ident0.name = "_" then
        (ck.error ident0.pos "invalid package name _", Except.error ())
      else
        Checker.init_files_loop ck objs (some ident0.name) (acc ++ [f]) rest
    | some pn =>
      if ident0.name = pn then
        Checker.init_files_loop ck objs pkg_name (acc ++ [f]) rest
      else
        (ck.error f.package ("package " ++ ident0.name ++ "; expected " ++ pn),
          Except.error ())

/-- Embeds Checker::init_files_pkg_name (check.rs 439-468). -/
def Checker.init_files_pkg_name (ck : Checker) (objs : Objects) (files : List AstFile) :
    Checker × Except Unit (List AstFile) :=
  Checker.init_files_loop ck objs none [] files

/-- Embeds Checker::check (check.rs 389-394).  After the package-name
validation the source builds a FilesContext, calls collect_objects
(resolver.rs, not among the provided sources, affecting only internal
checker state) and then returns Err(()) unconditionally; the returned
Result value is therefore Err on every path, which this embedding
reproduces exactly.  The checker-state component on the validated path is
returned as left by the validation step. -/
def Checker.check (ck : Checker) (objs : Objects) (files : List AstFile) :
    Checker × Except Unit Nat :=
  match Checker.init_files_pkg_name ck objs files with
  | (ck2, Except.error _) => (ck2, Except.error ())
  | (ck2, Except.ok _) => (ck2, Except.error ())

/-- Embeds the initial checker state built by Checker::new (check.rs
362-387) for the fields represented here: empty diagnostic lists, empty
obj_map and a fresh result store over a fresh arena. -/
def Checker.new (pkg : Nat) : Checker :=
  { tc_objs := TCObjects.new, errors := [], soft_errors := [], pkg := pkg,
    obj_map := [], result := TypeInfo.new }

/-! Claim C1. -/

/-- C1: the claim says check(files) returns a package key on a file list
that agrees on one non-blank package name, and fails only under the two
fatal package-name conditions.  The code returns Err(()) unconditionally
(check.rs 393), so check never produces a package key on any input; in
particular the package-name validation itself succeeds on an agreeing
single-file input while the call still fails, with no diagnostic recorded
by check on that path. -/
theorem c1_check_never_returns_package_key :
    (∀ (ck : Checker) (objs : Objects) (files : List AstFile),
      (Checker.check ck objs files).2 = Except.error ()) ∧
    (Checker.init_files_pkg_name (Checker.new 0)
        ⟨[⟨1, "a", IdentEntity.noEntity⟩], [], []⟩ [⟨0, 5⟩]).2
      = Except.ok [⟨0, 5⟩] ∧
    (Checker.check (Checker.new 0)
        ⟨[⟨1, "a", IdentEntity.noEntity⟩], [], []⟩ [⟨0, 5⟩]).1.errors = [] := by
  refine ⟨?_, ?_, ?_⟩
  · intro ck objs files
    unfold Checker.check
    split <;> rfl
  · rfl
  · rfl

/-! Claim C2. -/

/-- Loop lemma: once the authoritative package name pn is fixed, a run of
files named pn followed by a mismatching file makes init_files_pkg_name
record exactly one diagnostic, at the package clause of the mismatching
file, with the text package NAME; expected PN, and fail. -/
theorem init_files_loop_mismatch (ck : Checker) (objs : Objects) (pn : String)
    (fs : List AstFile) (fbad : AstFile) (rest : List AstFile)
    (hb : (identAt objs.idents fbad.name).name ≠ pn) :
    (∀ f ∈ fs, (identAt objs.idents f.name).name = pn) →
    ∀ acc, Checker.init_files_loop ck objs (some pn) acc (fs ++ fbad :: rest) =
      (ck.error fbad.package
        ("package " ++ (identAt objs.idents fbad.name).name ++ "; expected " ++ pn),
       Except.error ()) := by
  induction fs with
  | nil =>
    intro _ acc
    simp [Checker.init_files_loop, hb]
  | cons f t ih =>
    intro hfs acc
    have hf : (identAt objs.idents f.name).name = pn := hfs f (List.mem_cons_self _ _)
    have ht : ∀ g ∈ t, (identAt objs.idents g.name).name = pn :=
      fun g hg => hfs g (List.mem_cons_of_mem _ hg)
    simp only [List.cons_append, Checker.init_files_loop, hf, if_pos rfl]
    exact ih ht (acc ++ [f])

/-- C2 counterexample: with file 1 declaring package a and file 2 declaring
package b, the single recorded diagnostic reads package b; expected a,
which does not quote the text expected a, found b claimed by the spec. -/
theorem c2_counterexample :
    (Checker.init_files_pkg_name (Checker.new 0)
        ⟨[⟨1, "a", IdentEntity.noEntity⟩, ⟨2, "b", IdentEntity.noEntity⟩], [], []⟩
        [⟨0, 10⟩, ⟨1, 20⟩]).1.errors
      = [⟨20, "package b; expected a"⟩] ∧
    (Checker.init_files_pkg_name (Checker.new 0)
        ⟨[⟨1, "a", IdentEntity.noEntity⟩, ⟨2, "b", IdentEntity.noEntity⟩], [], []⟩
        [⟨0, 10⟩, ⟨1, 20⟩]).2 = Except.error () ∧
    ¬ List.IsInfix ("expected a, found b".toList) ("package b; expected a".toList) := by
  refine ⟨rfl, rfl, ?_⟩
  decide

/-- C2 amended: when the first file (heading a non-empty run of files that
all declare the same name a, with a not the blank identifier) is followed
by a file declaring a different name b, check fails immediately at that
first mismatching file with exactly one fatal hard diagnostic at its
package clause position, whose text is package b; expected a. -/
theorem c2_mismatch_fatal (ck : Checker) (objs : Objects) (a : String)
    (fs : List AstFile) (fbad : AstFile) (rest : List AstFile)
    (ha : a ≠ "_")
    (hne : fs ≠ [])
    (hfs : ∀ f ∈ fs, (identAt objs.idents f.name).name = a)
    (hb : (identAt objs.idents fbad.name).name ≠ a) :
    Checker.init_files_pkg_name ck objs (fs ++ fbad :: rest) =
      (ck.error fbad.package
        ("package " ++ (identAt objs.idents fbad.name).name ++ "; expected " ++ a),
       Except.error ()) := by
  cases fs with
  | nil => exact absurd rfl hne
  | cons f0 t =>
    have hf0 : (identAt objs.idents f0.name).name = a := hfs f0 (List.mem_cons_self _ _)
    have ht : ∀ g ∈ t, (identAt objs.idents g.name).name = a :=
      fun g hg => hfs g (List.mem_cons_of_mem _ hg)
    unfold Checker.init_files_pkg_name
    simp only [List.cons_append, Checker.init_files_loop, hf0, if_neg ha]
    exact init_files_loop_mismatch ck objs a t fbad rest hb ht ([] ++ [f0])

/-- C2 witness: the amended mismatch behaviour at a concrete two-file
input. -/
theorem c2_mismatch_fatal_witness :
    Checker.init_files_pkg_name (Checker.new 0)
        ⟨[⟨1, "a", IdentEntity.noEntity⟩, ⟨2, "b", IdentEntity.noEntity⟩], [], []⟩
        ([⟨0, 10⟩] ++ ⟨1, 20⟩ :: []) =
      ((Checker.new 0).error (20 : Nat)
        ("package " ++ (identAt [⟨1, "a", IdentEntity.noEntity⟩, ⟨2, "b", IdentEntity.noEntity⟩] 1).name
          ++ "; expected " ++ "a"),
       Except.error ()) := by
  exact c2_mismatch_fatal (Checker.new 0)
    ⟨[⟨1, "a", IdentEntity.noEntity⟩, ⟨2, "b", IdentEntity.noEntity⟩], [], []⟩
    "a" [⟨0, 10⟩] ⟨1, 20⟩ []
    (by decide) (by simp) (by intro f hf; simp at hf; subst hf; rfl) (by decide)

/-! Claim C3. -/

/-- C3: the claim says record_builtin_type records one identical signature
for the identifier and every enclosing paren node.  The code cannot: every
iteration calls record_type_and_value with val = None (check.rs 314) while
that function asserts val.is_some() before anything else (check.rs 300),
so the very first recording call panics on every input and nothing is ever
recorded. -/
theorem c3_record_builtin_type_always_panics :
    ∀ (ti : TypeInfo) (e : Expr) (sig : Nat), ti.record_builtin_type e sig = none := by
  intro ti e sig
  cases e <;> simp [TypeInfo.record_builtin_type, TypeInfo.record_type_and_value]

/-! Claim C7. -/

/-- C7: the claim says an invalid evaluation mode makes record
type-and-value a no-op that returns normally for every optional value
slot, the slot being required only for non-invalid modes.  The code
asserts val.is_some() before inspecting the mode (check.rs 300-303), so
with an invalid mode and an absent slot the call panics instead of
returning normally; with a supplied slot the invalid mode is indeed
ignored, and a non-invalid mode inserts an entry keyed by the
expression. -/
theorem c7_record_type_and_value_asserts_val_first :
    ∀ (ti : TypeInfo) (e : Expr) (typ : Nat) (v : Value),
      ti.record_type_and_value e OperandMode.invalid typ none = none ∧
      ti.record_type_and_value e OperandMode.invalid typ (some v) = some ti ∧
      ti.record_type_and_value e OperandMode.valueMode typ (some v)
        = some { ti with types := minsert ti.types e.id ⟨OperandMode.valueMode, typ, some v⟩ } := by
  intro ti e typ v
  refine ⟨rfl, rfl, ?_⟩
  simp [TypeInfo.record_type_and_value]

/-! Claim C4. -/

/-- C4: the claim says new_scope registers the key of the newly created
scope in the child list of a non-universe parent.  The source shadows the
fresh key with the parent key (objects.rs 82), so the call executes
scopes[parent].add_child(parent): the parent gains its own key as a child
and the new scope key is never registered; with a universe or absent
parent no registration occurs, as claimed. -/
theorem new_scope_nonuniverse (o : TCObjects) (pk pos epos : Nat) (comment : String)
    (h2 : pk ≠ o.universe_scope) :
    o.new_scope (some pk) pos epos comment =
      (o.scopes.length,
        { o with
          scopes :=
            ((o.scopes ++ [Scope.new (some pk) pos epos comment]).set pk
              ((scopeAt (o.scopes ++ [Scope.new (some pk) pos epos comment]) pk).add_child pk)) }) := by
  simp [TCObjects.new_scope, h2]

theorem c4_new_scope_misregisters_child (o : TCObjects) (pk pos epos : Nat) (comment : String)
    (h1 : pk < o.scopes.length) (h2 : pk ≠ o.universe_scope)
    (h3 : o.scopes.length ∉ (scopeAt o.scopes pk).children) :
    (o.new_scope (some pk) pos epos comment).1 = o.scopes.length ∧
    (scopeAt (o.new_scope (some pk) pos epos comment).2.scopes pk).children
      = (scopeAt o.scopes pk).children ++ [pk] ∧
    (o.new_scope (some pk) pos epos comment).1 ∉
      (scopeAt (o.new_scope (some pk) pos epos comment).2.scopes pk).children ∧
    (o.new_scope (some o.universe_scope) pos epos comment).2.scopes
      = o.scopes ++ [Scope.new (some o.universe_scope) pos epos comment] ∧
    (o.new_scope none pos epos comment).2.scopes
      = o.scopes ++ [Scope.new none pos epos comment] := by
  have hlen : pk < (o.scopes ++ [Scope.new (some pk) pos epos comment]).length := by
    simp only [List.length_append, List.length_cons, List.length_nil]
    omega
  have happ : (o.scopes ++ [Scope.new (some pk) pos epos comment]).getD pk (Scope.new none 0 0 "")
      = o.scopes.getD pk (Scope.new none 0 0 "") := getD_append_left _ _ _ _ h1
  have hkey : (scopeAt (o.new_scope (some pk) pos epos comment).2.scopes pk).children
      = (scopeAt o.scopes pk).children ++ [pk] := by
    rw [new_scope_nonuniverse o pk pos epos comment h2]
    unfold scopeAt
    dsimp only
    rw [getD_set_self _ _ _ _ hlen, happ]
    rfl
  refine ⟨?_, hkey, ?_, ?_, ?_⟩
  · rw [new_scope_nonuniverse o pk pos epos comment h2]
  · rw [hkey]
    rw [new_scope_nonuniverse o pk pos epos comment h2]
    dsimp only
    intro hmem
    rcases List.mem_append.mp hmem with hm | hm
    · exact h3 hm
    · have : o.scopes.length = pk := by simpa using hm
      omega
  · simp [TCObjects.new_scope]
  · simp [TCObjects.new_scope]

/-- C4 witness: in a fresh arena, a scope created under the unsafe package
scope (key 1, not the universe scope) makes that parent its own child and
leaves the new key 2 unregistered. -/
theorem c4_new_scope_misregisters_child_witness :
    (TCObjects.new.new_scope (some 1) 0 0 "block").1 = TCObjects.new.scopes.length ∧
    (scopeAt (TCObjects.new.new_scope (some 1) 0 0 "block").2.scopes 1).children
      = (scopeAt TCObjects.new.scopes 1).children ++ [1] ∧
    (TCObjects.new.new_scope (some 1) 0 0 "block").1 ∉
      (scopeAt (TCObjects.new.new_scope (some 1) 0 0 "block").2.scopes 1).children := by
  have h := c4_new_scope_misregisters_child TCObjects.new 1 0 0 "block"
    (by decide) (by decide) (by decide)
  exact ⟨h.1, h.2.1, h.2.2.1⟩

/-! Claim C5. -/

/-- C5: declaring a second object for a non-blank name n that is already
bound directly in the target scope leaves the scope bindings unchanged,
emits exactly one redeclared-in-this-block diagnostic at the new ident,
citing the resolved position of the previous declaration, and leaves the
new ident attached to its own freshly created entity, which is distinct
from the previously bound one. -/
theorem c5_declare_redeclaration (p : Parser) (kind : EntityKind)
    (scope_ind id pk : Nat) (n : String)
    (hid : id < p.objects.idents.length)
    (hname : (identAt p.objects.idents id).name = n)
    (hblank : n ≠ "_")
    (hprev : mlookup (pscopeAt p.objects.scopes scope_ind).entries n = some pk)
    (hpk : pk < p.objects.entities.length) :
    (p.declare kind scope_ind [id]).objects.scopes = p.objects.scopes ∧
    (p.declare kind scope_ind [id]).errors = p.errors ++
      [⟨(identAt p.objects.idents id).pos,
        n ++ " redeclared in this block\n\tprevious declaration at "
          ++ posToString (entityAt p.objects.entities pk).pos⟩] ∧
    (identAt (p.declare kind scope_ind [id]).objects.idents id).entity
      = IdentEntity.entity p.objects.entities.length ∧
    p.objects.entities.length ≠ pk := by
  have hstep : p.declare kind scope_ind [id] = p.declare_one kind scope_ind id := rfl
  have hentity : entityAt (p.objects.entities ++ [(⟨kind, n,
      (identAt p.objects.idents id).pos⟩ : Entity)]) pk = entityAt p.objects.entities pk := by
    unfold entityAt
    exact getD_append_left _ _ _ _ hpk
  have hone : p.declare_one kind scope_ind id =
      Parser.error
        { p with objects :=
          { p.objects with
            entities := p.objects.entities ++ [⟨kind, n, (identAt p.objects.idents id).pos⟩],
            idents := p.objects.idents.set id
              { identAt p.objects.idents id with
                entity := IdentEntity.entity p.objects.entities.length } } }
        (identAt p.objects.idents id).pos
        (n ++ " redeclared in this block\n\tprevious declaration at "
          ++ posToString (entityAt p.objects.entities pk).pos) := by
    simp only [Parser.declare_one, hname, if_neg hblank, PScope.insert, hprev]
    rw [hentity]
  rw [hstep, hone]
  refine ⟨rfl, ?_, ?_, ?_⟩
  · simp [Parser.error]
  · show (identAt (p.objects.idents.set id
        { identAt p.objects.idents id with
          entity := IdentEntity.entity p.objects.entities.length }) id).entity
      = IdentEntity.entity p.objects.entities.length
    unfold identAt
    rw [getD_set_self _ _ _ _ hid]
  · omega

/-- C5 witness: a concrete redeclaration of x in a scope that already binds
x to entity 0. -/
theorem c5_declare_redeclaration_witness :
    ((⟨⟨[⟨3, "x", IdentEntity.noEntity⟩], [⟨EntityKind.var, "x", 1⟩],
        [⟨none, [("x", 0)]⟩]⟩, [], 0, PToken.otherTok "", none⟩ : Parser).declare
      EntityKind.var 0 [0]).errors =
      [] ++ [⟨3, "x" ++ " redeclared in this block\n\tprevious declaration at "
        ++ posToString (entityAt [⟨EntityKind.var, "x", 1⟩] 0).pos⟩] := by
  exact (c5_declare_redeclaration
    ⟨⟨[⟨3, "x", IdentEntity.noEntity⟩], [⟨EntityKind.var, "x", 1⟩], [⟨none, [("x", 0)]⟩]⟩,
      [], 0, PToken.otherTok "", none⟩
    EntityKind.var 0 0 0 "x" (by decide) rfl (by decide) rfl (by decide)).2.1

/-! Claim C8. -/

/-- Arena read of an object key; embeds self.tc_objs.lobjs[key]. -/
def lobjAt (lobjs : List LangObj) (i : Nat) : LangObj :=
  lobjs.getD i ⟨0, none, "", none⟩

/-- Position invariant of the definitions map (check.rs 66): every
recorded identifier has the same source position as the object it
defines. -/
def defs_positions_ok (objs : Objects) (lobjs : List LangObj) (ti : TypeInfo) : Prop :=
  ∀ i o, mlookup ti.defs i = some o → (identAt objs.idents i).pos = (lobjAt lobjs o).pos

/-- Position invariant of the uses map (check.rs 72): every recorded
identifier has a source position different from the declaration position
of the object it denotes. -/
def uses_positions_ok (objs : Objects) (lobjs : List LangObj) (ti : TypeInfo) : Prop :=
  ∀ i o, mlookup ti.uses i = some o → (identAt objs.idents i).pos ≠ (lobjAt lobjs o).pos

/-- C8 counterexample: record_def is an unconditional insertion (check.rs
336-338), so it does not preserve the definitions-map position invariant
for all inputs: inserting an ident at position 5 for an object declared at
position 7 takes a store satisfying the invariant to one violating it. -/
theorem c8_counterexample :
    defs_positions_ok ⟨[⟨5, "x", IdentEntity.noEntity⟩], [], []⟩
      [⟨7, none, "x", none⟩] TypeInfo.new ∧
    ¬ defs_positions_ok ⟨[⟨5, "x", IdentEntity.noEntity⟩], [], []⟩
      [⟨7, none, "x", none⟩] (TypeInfo.new.record_def 0 0) := by
  constructor
  · intro i o h
    simp [TypeInfo.new, mlookup] at h
  · intro hinv
    have h := hinv 0 0 rfl
    simp [identAt, lobjAt] at h

/-- C8 amended: record_def and record_use are unconditional insertions
into their own map only; each preserves the corresponding position
invariant exactly when the recorded pair itself satisfies it (equal
positions for a definition, differing positions for a use). -/
theorem c8_record_def_use_positions (objs : Objects) (lobjs : List LangObj)
    (ti : TypeInfo) (i o : Nat) :
    ((ti.record_def i o).uses = ti.uses) ∧
    ((ti.record_use i o).defs = ti.defs) ∧
    (defs_positions_ok objs lobjs ti →
      (identAt objs.idents i).pos = (lobjAt lobjs o).pos →
      defs_positions_ok objs lobjs (ti.record_def i o)) ∧
    (uses_positions_ok objs lobjs ti →
      (identAt objs.idents i).pos ≠ (lobjAt lobjs o).pos →
      uses_positions_ok objs lobjs (ti.record_use i o)) := by
  refine ⟨rfl, rfl, ?_, ?_⟩
  · intro hinv hpos i2 o2 h
    simp only [TypeInfo.record_def] at h
    by_cases hk : i = i2
    · subst hk
      rw [mlookup_minsert_self] at h
      have ho := Option.some.inj h
      subst ho
      exact hpos
    · rw [mlookup_minsert_ne _ _ _ _ hk] at h
      exact hinv i2 o2 h
  · intro hinv hpos i2 o2 h
    simp only [TypeInfo.record_use] at h
    by_cases hk : i = i2
    · subst hk
      rw [mlookup_minsert_self] at h
      have ho := Option.some.inj h
      subst ho
      exact hpos
    · rw [mlookup_minsert_ne _ _ _ _ hk] at h
      exact hinv i2 o2 h

/-- C8 witness: recording a definition whose ident and object share
position 5 preserves the definitions-map invariant from the empty store. -/
theorem c8_record_def_use_positions_witness :
    defs_positions_ok ⟨[⟨5, "x", IdentEntity.noEntity⟩], [], []⟩
      [⟨5, none, "x", none⟩] (TypeInfo.new.record_def 0 0) := by
  exact (c8_record_def_use_positions ⟨[⟨5, "x", IdentEntity.noEntity⟩], [], []⟩
      [⟨5, none, "x", none⟩] TypeInfo.new 0 0).2.2.1
    (by intro i o h; simp [TypeInfo.new, mlookup] at h) rfl

/-! Claim C9. -/

theorem getD_mem_of_lt {α : Type} (l : List α) (i : Nat) (d : α) (h : i < l.length) :
    l.getD i d ∈ l := by
  induction l generalizing i with
  | nil => simp at h
  | cons a t ih =>
    cases i with
    | zero => simp [List.getD]
    | succ j =>
      simp only [List.getD_cons_succ]
      exact List.mem_cons_of_mem _ (ih j (by simpa using h))

/-- C9: add_decl_dep is a no-op when no package-level declaration is being
checked or when the target object is not in obj_map; otherwise it adds the
edge from the current declaration to the target, and consequently the
invariant that every dependency set only contains tracked (obj_map)
declarations is preserved by every call. -/
theorem c9_add_decl_dep (octx : ObjContext) (ck : Checker) (toObj : Nat) :
    (octx.decl = none → octx.add_decl_dep ck toObj = ck) ∧
    (mlookup ck.obj_map toObj = none → octx.add_decl_dep ck toObj = ck) ∧
    (∀ dk, octx.decl = some dk → (mlookup ck.obj_map toObj).isSome = true →
      (octx.add_decl_dep ck toObj).tc_objs.decls
          = ck.tc_objs.decls.set dk ((declAt ck.tc_objs.decls dk).add_dep toObj) ∧
      (dk < ck.tc_objs.decls.length →
        toObj ∈ (declAt (octx.add_decl_dep ck toObj).tc_objs.decls dk).deps)) ∧
    ((∀ di ∈ ck.tc_objs.decls, ∀ o ∈ di.deps, (mlookup ck.obj_map o).isSome = true) →
      ∀ di ∈ (octx.add_decl_dep ck toObj).tc_objs.decls, ∀ o ∈ di.deps,
        (mlookup (octx.add_decl_dep ck toObj).obj_map o).isSome = true) := by
  refine ⟨?_, ?_, ?_, ?_⟩
  · intro h
    simp [ObjContext.add_decl_dep, h]
  · intro h
    unfold ObjContext.add_decl_dep
    cases hd : octx.decl with
    | none => rfl
    | some dk => simp [h]
  · intro dk hdecl hsome
    have heq : octx.add_decl_dep ck toObj =
        { ck with tc_objs :=
          { ck.tc_objs with decls :=
            ck.tc_objs.decls.set dk ((declAt ck.tc_objs.decls dk).add_dep toObj) } } := by
      unfold ObjContext.add_decl_dep
      rw [hdecl]
      simp [hsome]
    refine ⟨by rw [heq], ?_⟩
    intro hlt
    rw [heq]
    show toObj ∈ (declAt (ck.tc_objs.decls.set dk
        ((declAt ck.tc_objs.decls dk).add_dep toObj)) dk).deps
    have hset : declAt (ck.tc_objs.decls.set dk
        ((declAt ck.tc_objs.decls dk).add_dep toObj)) dk
        = (declAt ck.tc_objs.decls dk).add_dep toObj := by
      unfold declAt
      exact getD_set_self _ _ _ _ hlt
    rw [hset]
    unfold DeclInfo.add_dep
    by_cases hmem : toObj ∈ (declAt ck.tc_objs.decls dk).deps
    · rw [if_pos hmem]
      exact hmem
    · rw [if_neg hmem]
      simp
  · intro hinv di hdi o ho
    revert hdi
    unfold ObjContext.add_decl_dep
    cases hd : octx.decl with
    | none => exact fun hdi => hinv di hdi o ho
    | some dk =>
      cases hs : (mlookup ck.obj_map toObj).isSome with
      | false =>
        simp only [hs]
        exact fun hdi => hinv di hdi o ho
      | true =>
        simp only [hs, Bool.true_eq_false, if_false]
        intro hdi
        rcases mem_of_mem_set _ _ _ _ hdi with hin | heq
        · exact hinv di hin o ho
        · subst heq
          unfold DeclInfo.add_dep at ho
          by_cases hmem : toObj ∈ (declAt ck.tc_objs.decls dk).deps
          · rw [if_pos hmem] at ho
            by_cases hdk : dk < ck.tc_objs.decls.length
            · exact hinv _ (by unfold declAt; exact getD_mem_of_lt _ _ _ hdk) o ho
            · have : declAt ck.tc_objs.decls dk = ⟨0, [], []⟩ := by
                unfold declAt
                rw [List.getD_eq_default]
                omega
              rw [this] at ho
              simp at ho
          · rw [if_neg hmem] at ho
            rcases List.mem_append.mp ho with h2 | h2
            · by_cases hdk : dk < ck.tc_objs.decls.length
              · exact hinv _ (by unfold declAt; exact getD_mem_of_lt _ _ _ hdk) o h2
              · have : declAt ck.tc_objs.decls dk = ⟨0, [], []⟩ := by
                  unfold declAt
                  rw [List.getD_eq_default]
                  omega
                rw [this] at h2
                simp at h2
            · have h3 : o = toObj := by simpa using h2
              subst h3
              exact hs

/-- C9 witness: with a current declaration 0 and toObj 5 tracked in
obj_map, the edge is added to the dependency set of declaration 0. -/
theorem c9_add_decl_dep_witness :
    (5 : Nat) ∈ (declAt ((⟨some 0, 0, 0, none, none, none, false, false⟩ : ObjContext).add_decl_dep
      ⟨⟨[], [], [], [], [⟨0, [], []⟩], 0, 0, true⟩, [], [], 0, [(5, 0)], TypeInfo.new⟩
      5).tc_objs.decls 0).deps := by
  exact ((c9_add_decl_dep ⟨some 0, 0, 0, none, none, none, false, false⟩
      ⟨⟨[], [], [], [], [⟨0, [], []⟩], 0, 0, true⟩, [], [], 0, [(5, 0)], TypeInfo.new⟩ 5).2.2.1
    0 rfl (by decide)).2 (by decide)

/-! Claim C6. -/

theorem set_set_same {α : Type} (l : List α) (i : Nat) (a b : α) :
    (l.set i a).set i b = l.set i b := by
  induction l generalizing i with
  | nil => rfl
  | cons x t ih =>
    cases i with
    | zero => rfl
    | succ j =>
      simp only [List.set_cons_succ]
      rw [ih]

/-- Rebinding step of short_var_decl: a left-hand ident whose non-blank
name is already bound directly in the top scope is rebound to the existing
entity, the tentatively created fresh entity stays unused in the arena,
the scope and the new-variable count are unchanged. -/
theorem svd_loop_rebind (q : Parser) (n i ik ts e0 : Nat) (rest : List Expr)
    (hts : q.top_scope = some ts)
    (hblank : (identAt q.objects.idents ik).name ≠ "_")
    (hprev : mlookup (pscopeAt q.objects.scopes ts).entries
      (identAt q.objects.idents ik).name = some e0) :
    Parser.svd_loop q n (Expr.ident i ik :: rest) =
      Parser.svd_loop
        { q with objects :=
          { q.objects with
            entities := q.objects.entities ++
              [⟨EntityKind.var, (identAt q.objects.idents ik).name,
                (identAt q.objects.idents ik).pos⟩],
            idents := q.objects.idents.set ik
              { identAt q.objects.idents ik with entity := IdentEntity.entity e0 } } }
        n rest := by
  simp only [Parser.svd_loop, if_neg hblank, hts, PScope.insert, hprev]
  rw [set_set_same]

/-- New-variable step of short_var_decl: a left-hand ident whose non-blank
name is not yet bound in the top scope is bound to its fresh entity and
the new-variable count is incremented. -/
theorem svd_loop_newvar (q : Parser) (n i ik ts : Nat) (rest : List Expr)
    (hts : q.top_scope = some ts)
    (hblank : (identAt q.objects.idents ik).name ≠ "_")
    (hnone : mlookup (pscopeAt q.objects.scopes ts).entries
      (identAt q.objects.idents ik).name = none) :
    Parser.svd_loop q n (Expr.ident i ik :: rest) =
      Parser.svd_loop
        { q with objects :=
          { q.objects with
            entities := q.objects.entities ++
              [⟨EntityKind.var, (identAt q.objects.idents ik).name,
                (identAt q.objects.idents ik).pos⟩],
            idents := q.objects.idents.set ik
              { identAt q.objects.idents ik with
                entity := IdentEntity.entity q.objects.entities.length },
            scopes := q.objects.scopes.set ts
              { pscopeAt q.objects.scopes ts with
                entries := minsert (pscopeAt q.objects.scopes ts).entries
                  (identAt q.objects.idents ik).name q.objects.entities.length } } }
        (n + 1) rest := by
  simp only [Parser.svd_loop, if_neg hblank, hts, PScope.insert, hnone]

/-- Error preservation of the short_var_decl loop on ident-only left-hand
sides: the loop itself emits no diagnostic. -/
theorem svd_loop_errors_of_idents (list : List Expr) :
    ∀ (q : Parser) (n : Nat) (q1 : Parser) (n1 : Nat),
      (∀ e ∈ list, ∃ i k, e = Expr.ident i k) →
      Parser.svd_loop q n list = some (q1, n1) → q1.errors = q.errors := by
  induction list with
  | nil =>
    intro q n q1 n1 _ h
    simp only [Parser.svd_loop] at h
    obtain ⟨h1, _⟩ := Prod.mk.inj (Option.some.inj h)
    rw [← h1]
  | cons e rest ih =>
    intro q n q1 n1 hall h
    obtain ⟨i, k, hik⟩ := hall e (List.mem_cons_self _ _)
    subst hik
    have hrest : ∀ e2 ∈ rest, ∃ i2 k2, e2 = Expr.ident i2 k2 :=
      fun e2 he2 => hall e2 (List.mem_cons_of_mem _ he2)
    by_cases hb : (identAt q.objects.idents k).name = "_"
    · simp only [Parser.svd_loop, if_pos hb] at h
      have h2 := ih _ n q1 n1 hrest h
      exact h2.trans rfl
    · cases hts : q.top_scope with
      | none =>
        simp only [Parser.svd_loop, if_neg hb, hts] at h
        simp at h
      | some ts =>
        cases hl : mlookup (pscopeAt q.objects.scopes ts).entries
            (identAt q.objects.idents k).name with
        | some e0 =>
          rw [svd_loop_rebind q n i k ts e0 rest hts hb hl] at h
          have h2 := ih _ n q1 n1 hrest h
          exact h2.trans rfl
        | none =>
          rw [svd_loop_newvar q n i k ts rest hts hb hl] at h
          have h2 := ih _ (n + 1) q1 n1 hrest h
          exact h2.trans rfl

/-- C6 amended: in a short-form declaration each left-hand ident whose
name is already bound directly in the current scope is rebound to the
existing entity without incrementing the new-variable count, each new
non-blank name is inserted and counted, the loop itself emits no
diagnostic on ident-only left-hand sides, a statement with zero new
variables reports exactly one diagnostic at the position of the first
expression whose text is no new variables on left side of := (not, as the
claim quotes, ... of declaration), and a statement with at least one new
variable reports nothing. -/
theorem c6_short_var_decl_semantics :
    (∀ (q : Parser) (n i ik ts e0 : Nat) (rest : List Expr),
      q.top_scope = some ts →
      (identAt q.objects.idents ik).name ≠ "_" →
      mlookup (pscopeAt q.objects.scopes ts).entries
        (identAt q.objects.idents ik).name = some e0 →
      Parser.svd_loop q n (Expr.ident i ik :: rest) =
        Parser.svd_loop
          { q with objects :=
            { q.objects with
              entities := q.objects.entities ++
                [⟨EntityKind.var, (identAt q.objects.idents ik).name,
                  (identAt q.objects.idents ik).pos⟩],
              idents := q.objects.idents.set ik
                { identAt q.objects.idents ik with entity := IdentEntity.entity e0 } } }
          n rest) ∧
    (∀ (q : Parser) (n i ik ts : Nat) (rest : List Expr),
      q.top_scope = some ts →
      (identAt q.objects.idents ik).name ≠ "_" →
      mlookup (pscopeAt q.objects.scopes ts).entries
        (identAt q.objects.idents ik).name = none →
      Parser.svd_loop q n (Expr.ident i ik :: rest) =
        Parser.svd_loop
          { q with objects :=
            { q.objects with
              entities := q.objects.entities ++
                [⟨EntityKind.var, (identAt q.objects.idents ik).name,
                  (identAt q.objects.idents ik).pos⟩],
              idents := q.objects.idents.set ik
                { identAt q.objects.idents ik with
                  entity := IdentEntity.entity q.objects.entities.length },
              scopes := q.objects.scopes.set ts
                { pscopeAt q.objects.scopes ts with
                  entries := minsert (pscopeAt q.objects.scopes ts).entries
                    (identAt q.objects.idents ik).name q.objects.entities.length } } }
          (n + 1) rest) ∧
    (∀ (list : List Expr) (q q1 : Parser) (n1 : Nat),
      (∀ e ∈ list, ∃ i k, e = Expr.ident i k) →
      Parser.svd_loop q 0 list = some (q1, n1) → q1.errors = q.errors) ∧
    (∀ (q q1 : Parser) (i0 ik0 : Nat) (rest0 : List Expr),
      Parser.svd_loop q 0 (Expr.ident i0 ik0 :: rest0) = some (q1, 0) →
      Parser.short_var_decl q (Expr.ident i0 ik0 :: rest0)
        = some (q1.error ((Expr.ident i0 ik0).pos q1.objects)
            "no new variables on left side of :=")) ∧
    (∀ (q q1 : Parser) (list : List Expr) (n1 : Nat),
      Parser.svd_loop q 0 list = some (q1, n1) → n1 ≠ 0 →
      Parser.short_var_decl q list = some q1) := by
  refine ⟨?_, ?_, ?_, ?_, ?_⟩
  · intro q n i ik ts e0 rest hts hb hl
    exact svd_loop_rebind q n i ik ts e0 rest hts hb hl
  · intro q n i ik ts rest hts hb hl
    exact svd_loop_newvar q n i ik ts rest hts hb hl
  · intro list q q1 n1 hall h
    exact svd_loop_errors_of_idents list q 0 q1 n1 hall h
  · intro q q1 i0 ik0 rest0 hloop
    unfold Parser.short_var_decl
    rw [hloop]
    rfl
  · intro q q1 list n1 hloop hn
    unfold Parser.short_var_decl
    rw [hloop]
    simp [hn]

/-- C6 counterexample: with x and y both already bound in the open scope,
the statement x, y := ... emits exactly one diagnostic, at position 10 of
the first expression, whose text is no new variables on left side of :=,
which differs from the text no new variables on left side of declaration
quoted by the claim. -/
theorem c6_counterexample :
    (Parser.short_var_decl
      ⟨⟨[⟨10, "x", IdentEntity.noEntity⟩, ⟨11, "y", IdentEntity.noEntity⟩],
        [⟨EntityKind.var, "x", 10⟩, ⟨EntityKind.var, "y", 11⟩],
        [⟨none, [("x", 0), ("y", 1)]⟩]⟩, [], 0, PToken.otherTok "", some 0⟩
      [Expr.ident 100 0, Expr.ident 101 1]).map Parser.errors
      = some [⟨10, "no new variables on left side of :="⟩] ∧
    "no new variables on left side of :=" ≠ "no new variables on left side of declaration" := by
  refine ⟨?_, by decide⟩
  rfl

/-- C6 witness: the new-variable step at a concrete state with an empty
open scope: x is inserted and counted. -/
theorem c6_short_var_decl_semantics_witness :
    Parser.svd_loop
      (⟨⟨[⟨10, "x", IdentEntity.noEntity⟩], [], [⟨none, []⟩]⟩,
        [], 0, PToken.otherTok "", some 0⟩ : Parser) 0 [Expr.ident 100 0] =
      Parser.svd_loop
        { (⟨⟨[⟨10, "x", IdentEntity.noEntity⟩], [], [⟨none, []⟩]⟩,
            [], 0, PToken.otherTok "", some 0⟩ : Parser) with objects :=
          { (⟨⟨[⟨10, "x", IdentEntity.noEntity⟩], [], [⟨none, []⟩]⟩,
              [], 0, PToken.otherTok "", some 0⟩ : Parser).objects with
            entities := (⟨⟨[⟨10, "x", IdentEntity.noEntity⟩], [], [⟨none, []⟩]⟩,
              [], 0, PToken.otherTok "", some 0⟩ : Parser).objects.entities ++
              [⟨EntityKind.var,
                (identAt [⟨10, "x", IdentEntity.noEntity⟩] 0).name,
                (identAt [⟨10, "x", IdentEntity.noEntity⟩] 0).pos⟩],
            idents := [⟨10, "x", IdentEntity.noEntity⟩].set 0
              { identAt [⟨10, "x", IdentEntity.noEntity⟩] 0 with
                entity := IdentEntity.entity 0 },
            scopes := [(⟨none, []⟩ : PScope)].set 0
              { pscopeAt [⟨none, []⟩] 0 with
                entries := minsert (pscopeAt [⟨none, []⟩] 0).entries
                  (identAt [⟨10, "x", IdentEntity.noEntity⟩] 0).name 0 } } }
        (0 + 1) [] := by
  exact c6_short_var_decl_semantics.2.1
    ⟨⟨[⟨10, "x", IdentEntity.noEntity⟩], [], [⟨none, []⟩]⟩,
      [], 0, PToken.otherTok "", some 0⟩ 0 100 0 0 [] rfl (by decide) rfl

/-! Claim C10. -/

/-- Paren spine of an expression: the expression itself followed by every
node reached by iteratively unwrapping paren nodes; this is exactly the
sequence of nodes the loop of record_comma_ok_types visits. -/
def parenSpine : Expr → List Expr
  | Expr.paren i p inner => Expr.paren i p inner :: parenSpine inner
  | e => [e]

/-- Presence of a recorded entry with a present value slot, as required by
the unwrap and the assertion of record_comma_ok_types. -/
def tvPresent : Option TypeAndValue → Bool
  | some tv => tv.val.isSome
  | none => false

/-- Expected sequence of freshly allocated comma-ok tuple types: one tuple
per level, each over its own pair of fresh variable keys. -/
def cotuples (vbase : Nat) : Nat → List Typ
  | 0 => []
  | n + 1 => Typ.tuple [vbase, vbase + 1] :: cotuples (vbase + 2) n

theorem parenSpine_ident (i k : Nat) : parenSpine (Expr.ident i k) = [Expr.ident i k] := rfl

theorem parenSpine_other (i p : Nat) : parenSpine (Expr.other i p) = [Expr.other i p] := rfl

theorem parenSpine_paren (i p : Nat) (inner : Expr) :
    parenSpine (Expr.paren i p inner) = Expr.paren i p inner :: parenSpine inner := rfl

/-- Panic direction of record_comma_ok_types: if any node on the paren
spine lacks a recorded entry or has an absent value slot, the call
panics. -/
theorem rcot_panics (e : Expr) : ∀ (ti : TypeInfo) (ck : Checker) (objs : Objects)
    (t : Nat × Nat),
    (∃ x ∈ parenSpine e, tvPresent (mlookup ti.types x.id) = false) →
    ti.record_comma_ok_types ck objs e t = none := by
  induction e with
  | ident i k =>
    intro ti ck objs t hex
    obtain ⟨x, hx, hf⟩ := hex
    rw [parenSpine_ident] at hx
    have hxe : x = Expr.ident i k := by simpa using hx
    subst hxe
    unfold TypeInfo.record_comma_ok_types
    cases hm : mlookup ti.types (Expr.ident i k).id with
    | none => rfl
    | some tv =>
      rw [hm] at hf
      simp only [tvPresent] at hf
      dsimp only
      rw [if_pos hf]
  | other i p =>
    intro ti ck objs t hex
    obtain ⟨x, hx, hf⟩ := hex
    rw [parenSpine_other] at hx
    have hxe : x = Expr.other i p := by simpa using hx
    subst hxe
    unfold TypeInfo.record_comma_ok_types
    cases hm : mlookup ti.types (Expr.other i p).id with
    | none => rfl
    | some tv =>
      rw [hm] at hf
      simp only [tvPresent] at hf
      dsimp only
      rw [if_pos hf]
  | paren i p inner ih =>
    intro ti ck objs t hex
    obtain ⟨x, hx, hf⟩ := hex
    unfold TypeInfo.record_comma_ok_types
    cases hm : mlookup ti.types (Expr.paren i p inner).id with
    | none => rfl
    | some tv =>
      dsimp only
      by_cases hval : tv.val.isSome = false
      · rw [if_pos hval]
      · rw [if_neg hval]
        apply ih
        rw [parenSpine_paren] at hx
        rcases List.mem_cons.mp hx with hxh | hxt
        · exfalso
          rw [hxh, hm] at hf
          simp only [tvPresent] at hf
          exact hval hf
        · refine ⟨x, hxt, ?_⟩
          show tvPresent (mlookup (minsert ti.types (Expr.paren i p inner).id
            { tv with typ := (ck.comma_ok_type objs (Expr.paren i p inner) t).1 }) x.id) = false
          by_cases hk : x.id = (Expr.paren i p inner).id
          · exfalso
            rw [hk, hm] at hf
            simp only [tvPresent] at hf
            exact hval hf
          · rw [mlookup_minsert_ne _ _ _ _ (fun h2 => hk h2.symm)]
            exact hf

/-- Success direction of record_comma_ok_types: with every spine node
recorded and value-bearing, the call succeeds; the type arena gains one
fresh tuple per level, each over its own two fresh variable objects, the
entries of nodes off the spine are untouched, and (for well-formed
expressions with distinct node ids) the recorded entry of the level-j node
is rewritten to the j-th fresh tuple key, keeping its mode and value. -/
theorem rcot_success (e : Expr) : ∀ (ti : TypeInfo) (ck : Checker) (objs : Objects)
    (t : Nat × Nat),
    (∀ x ∈ parenSpine e, tvPresent (mlookup ti.types x.id) = true) →
    ∃ ti2 ck2,
      ti.record_comma_ok_types ck objs e t = some (ti2, ck2) ∧
      ck2.tc_objs.types
        = ck.tc_objs.types ++ cotuples ck.tc_objs.lobjs.length (parenSpine e).length ∧
      ck2.tc_objs.lobjs.length = ck.tc_objs.lobjs.length + 2 * (parenSpine e).length ∧
      (∀ k2, k2 ∉ (parenSpine e).map Expr.id →
        mlookup ti2.types k2 = mlookup ti.types k2) ∧
      (((parenSpine e).map Expr.id).Nodup →
        ∀ j, j < (parenSpine e).length →
          ∃ tv, mlookup ti.types ((parenSpine e).getD j (Expr.other 0 0)).id = some tv ∧
            mlookup ti2.types ((parenSpine e).getD j (Expr.other 0 0)).id
              = some { tv with typ := ck.tc_objs.types.length + j }) := by
  induction e with
  | ident i k =>
    intro ti ck objs t hall
    have hp := hall (Expr.ident i k) (by rw [parenSpine_ident]; exact List.mem_cons_self _ _)
    cases hm : mlookup ti.types (Expr.ident i k).id with
    | none => rw [hm] at hp; simp [tvPresent] at hp
    | some tv =>
      rw [hm] at hp
      simp only [tvPresent] at hp
      have hval : ¬ tv.val.isSome = false := by simp [hp]
      refine ⟨{ ti with types := (minsert ti.types (Expr.ident i k).id
          { tv with typ := (ck.comma_ok_type objs (Expr.ident i k) t).1 }) },
        (ck.comma_ok_type objs (Expr.ident i k) t).2, ?_, ?_, ?_, ?_, ?_⟩
      · unfold TypeInfo.record_comma_ok_types
        rw [hm]
        dsimp only
        rw [if_neg hval]
      · show ck.tc_objs.types ++ [Typ.tuple [ck.tc_objs.lobjs.length,
            ck.tc_objs.lobjs.length + 1]]
          = ck.tc_objs.types ++ cotuples ck.tc_objs.lobjs.length (parenSpine (Expr.ident i k)).length
        rw [parenSpine_ident]
        rfl
      · show (ck.tc_objs.lobjs ++ [LangObj.new_var (Expr.pos objs (Expr.ident i k)) (some ck.pkg) "" (some t.1),
            LangObj.new_var (Expr.pos objs (Expr.ident i k)) (some ck.pkg) "" (some t.2)]).length
          = ck.tc_objs.lobjs.length + 2 * (parenSpine (Expr.ident i k)).length
        rw [parenSpine_ident]
        simp
      · intro k2 hk2
        rw [parenSpine_ident] at hk2
        simp only [List.map_cons, List.map_nil] at hk2
        have hne : (Expr.ident i k).id ≠ k2 := fun h2 => hk2 (by simp [h2])
        exact mlookup_minsert_ne _ _ _ _ hne
      · intro _ j hj
        rw [parenSpine_ident] at hj ⊢
        have hj0 : j = 0 := by simpa using hj
        subst hj0
        refine ⟨tv, by simpa using hm, ?_⟩
        simp only [List.getD_cons_zero]
        show mlookup (minsert ti.types (Expr.ident i k).id
            { tv with typ := (ck.comma_ok_type objs (Expr.ident i k) t).1 }) (Expr.ident i k).id
          = some { tv with typ := ck.tc_objs.types.length + 0 }
        rw [mlookup_minsert_self, Nat.add_zero]
        rfl
  | other i p =>
    intro ti ck objs t hall
    have hp := hall (Expr.other i p) (by rw [parenSpine_other]; exact List.mem_cons_self _ _)
    cases hm : mlookup ti.types (Expr.other i p).id with
    | none => rw [hm] at hp; simp [tvPresent] at hp
    | some tv =>
      rw [hm] at hp
      simp only [tvPresent] at hp
      have hval : ¬ tv.val.isSome = false := by simp [hp]
      refine ⟨{ ti with types := (minsert ti.types (Expr.other i p).id
          { tv with typ := (ck.comma_ok_type objs (Expr.other i p) t).1 }) },
        (ck.comma_ok_type objs (Expr.other i p) t).2, ?_, ?_, ?_, ?_, ?_⟩
      · unfold TypeInfo.record_comma_ok_types
        rw [hm]
        dsimp only
        rw [if_neg hval]
      · show ck.tc_objs.types ++ [Typ.tuple [ck.tc_objs.lobjs.length,
            ck.tc_objs.lobjs.length + 1]]
          = ck.tc_objs.types ++ cotuples ck.tc_objs.lobjs.length (parenSpine (Expr.other i p)).length
        rw [parenSpine_other]
        rfl
      · show (ck.tc_objs.lobjs ++ [LangObj.new_var (Expr.pos objs (Expr.other i p)) (some ck.pkg) "" (some t.1),
            LangObj.new_var (Expr.pos objs (Expr.other i p)) (some ck.pkg) "" (some t.2)]).length
          = ck.tc_objs.lobjs.length + 2 * (parenSpine (Expr.other i p)).length
        rw [parenSpine_other]
        simp
      · intro k2 hk2
        rw [parenSpine_other] at hk2
        simp only [List.map_cons, List.map_nil] at hk2
        have hne : (Expr.other i p).id ≠ k2 := fun h2 => hk2 (by simp [h2])
        exact mlookup_minsert_ne _ _ _ _ hne
      · intro _ j hj
        rw [parenSpine_other] at hj ⊢
        have hj0 : j = 0 := by simpa using hj
        subst hj0
        refine ⟨tv, by simpa using hm, ?_⟩
        simp only [List.getD_cons_zero]
        show mlookup (minsert ti.types (Expr.other i p).id
            { tv with typ := (ck.comma_ok_type objs (Expr.other i p) t).1 }) (Expr.other i p).id
          = some { tv with typ := ck.tc_objs.types.length + 0 }
        rw [mlookup_minsert_self, Nat.add_zero]
        rfl
  | paren i p inner ih =>
    intro ti ck objs t hall
    have hp := hall (Expr.paren i p inner)
      (by rw [parenSpine_paren]; exact List.mem_cons_self _ _)
    cases hm : mlookup ti.types (Expr.paren i p inner).id with
    | none => rw [hm] at hp; simp [tvPresent] at hp
    | some tv =>
      rw [hm] at hp
      simp only [tvPresent] at hp
      have hval : ¬ tv.val.isSome = false := by simp [hp]
      have hT : ((ck.comma_ok_type objs (Expr.paren i p inner) t).2).tc_objs.types
          = ck.tc_objs.types ++ [Typ.tuple [ck.tc_objs.lobjs.length,
            ck.tc_objs.lobjs.length + 1]] := rfl
      have hL : ((ck.comma_ok_type objs (Expr.paren i p inner) t).2).tc_objs.lobjs.length
          = ck.tc_objs.lobjs.length + 2 := by
        show (ck.tc_objs.lobjs ++ [LangObj.new_var (Expr.pos objs (Expr.paren i p inner)) (some ck.pkg) "" (some t.1),
          LangObj.new_var (Expr.pos objs (Expr.paren i p inner)) (some ck.pkg) "" (some t.2)]).length
          = ck.tc_objs.lobjs.length + 2
        simp
      have hinner_all : ∀ x ∈ parenSpine inner,
          tvPresent (mlookup ({ ti with types := (minsert ti.types (Expr.paren i p inner).id
            { tv with typ := (ck.comma_ok_type objs (Expr.paren i p inner) t).1 }) } : TypeInfo).types
            x.id) = true := by
        intro x hx
        show tvPresent (mlookup (minsert ti.types (Expr.paren i p inner).id
          { tv with typ := (ck.comma_ok_type objs (Expr.paren i p inner) t).1 }) x.id) = true
        by_cases hk : x.id = (Expr.paren i p inner).id
        · rw [hk, mlookup_minsert_self]
          simpa [tvPresent] using hp
        · rw [mlookup_minsert_ne _ _ _ _ (fun h2 => hk h2.symm)]
          exact hall x (by rw [parenSpine_paren]; exact List.mem_cons_of_mem _ hx)
      obtain ⟨ti3, ck3, hrec2, htypes, hlen, hout, hmap⟩ :=
        ih { ti with types := (minsert ti.types (Expr.paren i p inner).id
              { tv with typ := (ck.comma_ok_type objs (Expr.paren i p inner) t).1 }) }
          ((ck.comma_ok_type objs (Expr.paren i p inner) t).2) objs t hinner_all
      refine ⟨ti3, ck3, ?_, ?_, ?_, ?_, ?_⟩
      · unfold TypeInfo.record_comma_ok_types
        rw [hm]
        dsimp only
        rw [if_neg hval]
        exact hrec2
      · rw [htypes, hT, hL, parenSpine_paren]
        simp only [List.length_cons]
        rw [List.append_assoc]
        rfl
      · rw [hlen, hL, parenSpine_paren]
        simp only [List.length_cons]
        omega
      · intro k2 hk2
        rw [parenSpine_paren] at hk2
        simp only [List.map_cons, List.mem_cons, not_or] at hk2
        rw [hout k2 hk2.2]
        show mlookup (minsert ti.types (Expr.paren i p inner).id
          { tv with typ := (ck.comma_ok_type objs (Expr.paren i p inner) t).1 }) k2
          = mlookup ti.types k2
        exact mlookup_minsert_ne _ _ _ _ (fun h2 => hk2.1 h2.symm)
      · intro hnd j hj
        rw [parenSpine_paren] at hnd hj ⊢
        simp only [List.map_cons, List.nodup_cons] at hnd
        obtain ⟨hnotin, hnd2⟩ := hnd
        cases j with
        | zero =>
          refine ⟨tv, ?_, ?_⟩
          · simpa using hm
          · simp only [List.getD_cons_zero]
            rw [hout (Expr.paren i p inner).id (by simpa using hnotin)]
            show mlookup (minsert ti.types (Expr.paren i p inner).id
                { tv with typ := (ck.comma_ok_type objs (Expr.paren i p inner) t).1 })
                (Expr.paren i p inner).id
              = some { tv with typ := ck.tc_objs.types.length + 0 }
            rw [mlookup_minsert_self, Nat.add_zero]
            rfl
        | succ j2 =>
          have hj2 : j2 < (parenSpine inner).length := by simpa using hj
          obtain ⟨tv2, hm2, hm3⟩ := hmap hnd2 j2 hj2
          have hxmem : ((parenSpine inner).getD j2 (Expr.other 0 0)) ∈ parenSpine inner :=
            getD_mem_of_lt _ _ _ hj2
          have hxid : ((parenSpine inner).getD j2 (Expr.other 0 0)).id
              ≠ (Expr.paren i p inner).id := by
            intro h2
            exact hnotin (by
              rw [← h2]
              exact List.mem_map_of_mem Expr.id hxmem)
          have hm2b : mlookup ti.types ((parenSpine inner).getD j2 (Expr.other 0 0)).id
              = some tv2 := by
            have hm2c : mlookup (minsert ti.types (Expr.paren i p inner).id
                { tv with typ := (ck.comma_ok_type objs (Expr.paren i p inner) t).1 })
                ((parenSpine inner).getD j2 (Expr.other 0 0)).id = some tv2 := hm2
            rw [mlookup_minsert_ne _ _ _ _ (fun h2 => hxid h2.symm)] at hm2c
            exact hm2c
          refine ⟨tv2, ?_, ?_⟩
          · simpa using hm2b
          · simp only [List.getD_cons_succ]
            rw [hm3]
            have harith : ((ck.comma_ok_type objs (Expr.paren i p inner) t).2).tc_objs.types.length + j2
                = ck.tc_objs.types.length + (j2 + 1) := by
              rw [hT]
              simp only [List.length_append, List.length_cons, List.length_nil]
              omega
            rw [harith]

/-- C10: record_comma_ok_types panics when the expression or any node
reached by unwrapping its parens lacks a recorded entry or a present value
slot; when all entries exist it rewrites each recorded level to a freshly
allocated tuple type, allocating a distinct new type key and two fresh
variable objects per level rather than one shared key. -/
theorem c10_record_comma_ok_types (objs : Objects) (ti : TypeInfo) (ck : Checker)
    (e : Expr) (t : Nat × Nat) :
    ((∃ x ∈ parenSpine e, tvPresent (mlookup ti.types x.id) = false) →
      ti.record_comma_ok_types ck objs e t = none) ∧
    ((∀ x ∈ parenSpine e, tvPresent (mlookup ti.types x.id) = true) →
      ∃ ti2 ck2,
        ti.record_comma_ok_types ck objs e t = some (ti2, ck2) ∧
        ck2.tc_objs.types
          = ck.tc_objs.types ++ cotuples ck.tc_objs.lobjs.length (parenSpine e).length ∧
        ck2.tc_objs.lobjs.length = ck.tc_objs.lobjs.length + 2 * (parenSpine e).length ∧
        (∀ k2, k2 ∉ (parenSpine e).map Expr.id →
          mlookup ti2.types k2 = mlookup ti.types k2) ∧
        (((parenSpine e).map Expr.id).Nodup →
          ∀ j, j < (parenSpine e).length →
            ∃ tv, mlookup ti.types ((parenSpine e).getD j (Expr.other 0 0)).id = some tv ∧
              mlookup ti2.types ((parenSpine e).getD j (Expr.other 0 0)).id
                = some { tv with typ := ck.tc_objs.types.length + j })) :=
  ⟨rcot_panics e ti ck objs t, rcot_success e ti ck objs t⟩

/-- C10 witness: the success direction at a doubly-parenthesized
identifier whose three nodes all carry recorded value-bearing entries. -/
theorem c10_record_comma_ok_types_witness :
    ∃ ti2 ck2,
      TypeInfo.record_comma_ok_types
        { TypeInfo.new with types :=
          [(2, ⟨OperandMode.commaok, 9, some 0⟩), (1, ⟨OperandMode.commaok, 9, some 0⟩),
            (0, ⟨OperandMode.commaok, 9, some 0⟩)] }
        (Checker.new 0) ⟨[⟨5, "m", IdentEntity.noEntity⟩], [], []⟩
        (Expr.paren 2 0 (Expr.paren 1 0 (Expr.ident 0 0))) (7, 8) = some (ti2, ck2) ∧
      ck2.tc_objs.types
        = (Checker.new 0).tc_objs.types ++ cotuples (Checker.new 0).tc_objs.lobjs.length
            (parenSpine (Expr.paren 2 0 (Expr.paren 1 0 (Expr.ident 0 0)))).length ∧
      ck2.tc_objs.lobjs.length = (Checker.new 0).tc_objs.lobjs.length
        + 2 * (parenSpine (Expr.paren 2 0 (Expr.paren 1 0 (Expr.ident 0 0)))).length ∧
      (∀ k2, k2 ∉ (parenSpine (Expr.paren 2 0 (Expr.paren 1 0 (Expr.ident 0 0)))).map Expr.id →
        mlookup ti2.types k2 = mlookup
          ({ TypeInfo.new with types :=
            [(2, ⟨OperandMode.commaok, 9, some 0⟩), (1, ⟨OperandMode.commaok, 9, some 0⟩),
              (0, ⟨OperandMode.commaok, 9, some 0⟩)] } : TypeInfo).types k2) ∧
      (((parenSpine (Expr.paren 2 0 (Expr.paren 1 0 (Expr.ident 0 0)))).map Expr.id).Nodup →
        ∀ j, j < (parenSpine (Expr.paren 2 0 (Expr.paren 1 0 (Expr.ident 0 0)))).length →
          ∃ tv, mlookup
              ({ TypeInfo.new with types :=
                [(2, ⟨OperandMode.commaok, 9, some 0⟩), (1, ⟨OperandMode.commaok, 9, some 0⟩),
                  (0, ⟨OperandMode.commaok, 9, some 0⟩)] } : TypeInfo).types
              ((parenSpine (Expr.paren 2 0 (Expr.paren 1 0 (Expr.ident 0 0)))).getD j
                (Expr.other 0 0)).id = some tv ∧
            mlookup ti2.types
              ((parenSpine (Expr.paren 2 0 (Expr.paren 1 0 (Expr.ident 0 0)))).getD j
                (Expr.other 0 0)).id
              = some { tv with typ := (Checker.new 0).tc_objs.types.length + j }) := by
  exact (c10_record_comma_ok_types ⟨[⟨5, "m", IdentEntity.noEntity⟩], [], []⟩
    { TypeInfo.new with types :=
      [(2, ⟨OperandMode.commaok, 9, some 0⟩), (1, ⟨OperandMode.commaok, 9, some 0⟩),
        (0, ⟨OperandMode.commaok, 9, some 0⟩)] }
    (Checker.new 0) (Expr.paren 2 0 (Expr.paren 1 0 (Expr.ident 0 0))) (7, 8)).2
    (by decide)

end Goscript
